import Mathlib

/-!
# Verification of the voc4cat-tool spreadsheet/RDF conversion core

Shallow embedding of `src/voc4cat/convert.py` and `src/voc4cat/utils.py`.

Modelling conventions:
* A spreadsheet cell value is `Option String`: `none` models Python `None`
  (an empty cell), `some s` a textual cell value.
* A worksheet row bundles its 1-based row number with the values of the
  fixed columns A..H that the extractor addresses (`s[f"A{row}"]` ...).
* The external Domain Model collaborator (`models.Concept`,
  `models.Collection`, `models.ConceptScheme`) validates its fields on
  construction; it is abstracted as validator functions returning
  `Except String Unit` (`.error msg` models a raised pydantic
  `ValidationError` whose string form is `msg`).
* Raised Python exceptions are modelled with `Except`; the two exception
  kinds that `convert.py` raises are distinguished by `PyError`.
* All functions are pure, mirroring the absence of module-level mutable
  state in the source.
-/

/-- A spreadsheet cell value: `none` models Python `None` (no content). -/
abbrev CellValue := Option String

/-- Helper for `pySplitChar`: split the character list at every
occurrence of `sep`, keeping empty parts (`acc` is the reversed current
part). -/
def pySplitCharAux (sep : Char) : List Char → List Char → List (List Char)
  | [], acc => [acc.reverse]
  | c :: cs, acc =>
    if c = sep then acc.reverse :: pySplitCharAux sep cs []
    else pySplitCharAux sep cs (c :: acc)

/-- Python `str.split(sep)` for a one-character separator: split at every
occurrence of `sep`, keeping empty parts (`"a,,b".split(",") ==
["a","","b"]`, `"".split(",") == [""]`). -/
def pySplitChar (sep : Char) (s : String) : List String :=
  (pySplitCharAux sep s.data []).map String.mk

/-- Python `str.strip()`: remove leading and trailing whitespace. -/
def pyStrip (s : String) : String :=
  String.mk (((s.data.dropWhile Char.isWhitespace).reverse.dropWhile
    Char.isWhitespace).reverse)

/-- Python `str.endswith(suffix)`: a raw suffix test on the characters. -/
def pyEndswith (s suffix : String) : Bool :=
  suffix.data.isSuffixOf s.data

namespace Convert

/-- `EXCEL_FILE_ENDINGS` from convert.py (note: no leading dot). -/
def EXCEL_FILE_ENDINGS : List String := ["xlsx"]

/-- `RDF_FILE_ENDINGS` from convert.py (note: no leading dots). -/
def RDF_FILE_ENDINGS : List String :=
  ["ttl", "rdf", "xml", "json-ld", "json", "nt", "n3"]

/-- The two exception kinds raised by convert.py: plain `ValueError`
(for the input gates) and `ConversionError` (wrapping validation errors). -/
inductive PyError where
  | valueError (msg : String)
  | conversionError (msg : String)
deriving DecidableEq, Repr

/-- `split_and_tidy` from convert.py:
`[x.strip() for x in cell_value.strip().split(",")] if cell_value is not None else None`.
It trims the whole value, splits on commas, trims each token; it keeps
empty tokens and returns `none` (Python `None`) for an absent value. -/
def split_and_tidy (cell_value : CellValue) : Option (List String) :=
  match cell_value with
  | none => none
  | some v => some ((pySplitChar ',' (pyStrip v)).map pyStrip)

/-- One worksheet row: its row number and the values of columns A..H.
`A` is the first-column cell that `iter_cols(max_col=1)` visits; the other
columns are what `s[f"B{row}"]` ... `s[f"H{row}"]` read on that row. -/
structure Row where
  idx : Nat
  A : CellValue
  B : CellValue
  C : CellValue
  D : CellValue
  E : CellValue
  F : CellValue
  G : CellValue
  H : CellValue
deriving DecidableEq, Repr

/-- The fields that convert.py passes to `models.Concept(...)`. -/
structure Concept where
  uri : CellValue
  pref_label : CellValue
  alt_labels : Option (List String)
  definition : CellValue
  children : Option (List String)
  other_ids : Option (List String)
  home_vocab_uri : CellValue
  provenance : CellValue
deriving DecidableEq, Repr

/-- The fields that convert.py passes to `models.Collection(...)`. -/
structure Collection where
  uri : CellValue
  pref_label : CellValue
  definition : CellValue
  members : Option (List String)
  provenance : CellValue
deriving DecidableEq, Repr

/-- The `models.Concept(...)` call of `extract_concepts_and_collections`:
fixed column offsets A=uri, B=pref_label, C=alt_labels (split),
D=definition, E=children (split), F=other_ids (split), G=home_vocab_uri,
H=provenance. -/
def mkConcept (r : Row) : Concept where
  uri := r.A
  pref_label := r.B
  alt_labels := split_and_tidy r.C
  definition := r.D
  children := split_and_tidy r.E
  other_ids := split_and_tidy r.F
  home_vocab_uri := r.G
  provenance := r.H

/-- The `models.Collection(...)` call of `extract_concepts_and_collections`:
fixed column offsets A=uri, B=pref_label, C=definition, D=members (split),
E=provenance. -/
def mkCollection (r : Row) : Collection where
  uri := r.A
  pref_label := r.B
  definition := r.C
  members := split_and_tidy r.D
  provenance := r.E

/-- A field validator of the external Domain Model collaborator:
`.ok ()` models a successful pydantic construction, `.error msg` a raised
`ValidationError` rendering as `msg`. -/
abbrev Validator (α : Type) := α → Except String Unit

/-- The loop state of `extract_concepts_and_collections`: the two
accumulator lists and the two section flags. -/
structure ExtractState where
  concepts : List Concept
  collections : List Collection
  process_concept : Bool
  process_collection : Bool
deriving DecidableEq, Repr

/-- The initial loop state: empty accumulators, both flags `False`. -/
def initState : ExtractState :=
  { concepts := [], collections := [],
    process_concept := false, process_collection := false }

/-- One iteration of the cell loop of `extract_concepts_and_collections`,
mirroring the `if`/`elif` chain on `cell.value` (the first-column value of
row `r`): the sentinel checks come first, then the section branches, and a
row is parsed only when its first-column cell is non-empty. -/
def stepRow (vcon : Validator Concept) (vcol : Validator Collection)
    (st : ExtractState) (r : Row) : Except String ExtractState :=
  if r.A = some "Concept URI" then
    .ok { st with process_concept := true }
  else if r.A = some "Collection URI" then
    .ok { st with process_concept := false, process_collection := true }
  else if st.process_concept then
    match r.A with
    | none => .ok st
    | some _ =>
      let c := mkConcept r
      match vcon c with
      | .ok _ => .ok { st with concepts := st.concepts ++ [c] }
      | .error e =>
          .error ("Concept processing error, row " ++ toString r.idx
            ++ ", error: " ++ e)
  else if st.process_collection then
    match r.A with
    | none => .ok st
    | some _ =>
      let c := mkCollection r
      match vcol c with
      | .ok _ => .ok { st with collections := st.collections ++ [c] }
      | .error e =>
          .error ("Collection processing error, row " ++ toString r.idx
            ++ ", error: " ++ e)
  else
    .ok st

/-- The cell loop of `extract_concepts_and_collections` over the rows of
the first column, threading the state; a raised `ConversionError` aborts
the whole loop. -/
def runRows (vcon : Validator Concept) (vcol : Validator Collection)
    (st : ExtractState) : List Row → Except String ExtractState
  | [] => .ok st
  | r :: rs =>
    match stepRow vcon vcol st r with
    | .ok st' => runRows vcon vcol st' rs
    | .error e => .error e

/-- `extract_concepts_and_collections` from convert.py: scan the first
column row by row and return the accumulated `(concepts, collections)`,
or the first row-validation error. -/
def extract_concepts_and_collections (vcon : Validator Concept)
    (vcol : Validator Collection) (s : List Row) :
    Except String (List Concept × List Collection) :=
  match runRows vcon vcol initState s with
  | .ok st => .ok (st.concepts, st.collections)
  | .error e => .error e

/-- The fields that `excel_to_rdf` passes to `models.ConceptScheme(...)`
from the fixed header cells B1..B11. -/
structure ConceptScheme where
  uri : CellValue
  title : CellValue
  description : CellValue
  created : CellValue
  modified : CellValue
  creator : CellValue
  publisher : CellValue
  version : CellValue
  provenance : CellValue
  custodian : CellValue
  pid : CellValue
deriving DecidableEq, Repr

/-- The selected worksheet as `excel_to_rdf` reads it: the fixed header
cells B1..B11 and the rows that `extract_concepts_and_collections`
scans. -/
structure Sheet where
  B1 : CellValue
  B2 : CellValue
  B3 : CellValue
  B4 : CellValue
  B5 : CellValue
  B6 : CellValue
  B7 : CellValue
  B8 : CellValue
  B9 : CellValue
  B10 : CellValue
  B11 : CellValue
  rows : List Row
deriving DecidableEq, Repr

/-- The `models.ConceptScheme(...)` call of `excel_to_rdf`: the fixed
header-cell mapping B1=uri .. B11=pid. -/
def mkConceptScheme (sheet : Sheet) : ConceptScheme where
  uri := sheet.B1
  title := sheet.B2
  description := sheet.B3
  created := sheet.B4
  modified := sheet.B5
  creator := sheet.B6
  publisher := sheet.B7
  version := sheet.B8
  provenance := sheet.B9
  custodian := sheet.B10
  pid := sheet.B11

/-- The assembled `models.Vocabulary(...)`: one ConceptScheme plus the
ordered concept and collection sequences.  Graph serialization
(`to_graph`) is an external collaborator and out of scope. -/
structure Vocabulary where
  concept_scheme : ConceptScheme
  concepts : List Concept
  collections : List Collection
deriving DecidableEq, Repr

/-- `excel_to_rdf` from convert.py, up to Vocabulary assembly (the
`to_graph()`/`serialize()` collaborator is external).  The workbook
loading collaborator is abstracted away: `sheet` is the worksheet the
loaded workbook yields for the selected sheet name; the extension gate
runs before it is consulted.  `file_name` is
`file_to_convert_path.name`; as in the source the gate is
`name.endswith(tuple(EXCEL_FILE_ENDINGS))`, a raw suffix test on
`"xlsx"`. -/
def excel_to_rdf (vcs : Validator ConceptScheme) (vcon : Validator Concept)
    (vcol : Validator Collection) (file_name : String) (sheet : Sheet) :
    Except PyError Vocabulary :=
  if ¬ (EXCEL_FILE_ENDINGS.any fun e => pyEndswith file_name e) then
    .error (.valueError
      "Files for conversion to RDF must be Excel files ending .xlsx")
  else
    match vcs (mkConceptScheme sheet) with
    | .error e =>
        .error (.conversionError ("ConceptScheme processing error: " ++ e))
    | .ok _ =>
      match extract_concepts_and_collections vcon vcol sheet.rows with
      | .error e => .error (.conversionError e)
      | .ok (cs, ls) => .ok ⟨mkConceptScheme sheet, cs, ls⟩

/-- Modelled from the spec: the key set of the external profile registry
`profiles.PROFILES` (the `profiles` module is not part of the sources
under verification).  The spec names "vocpub" as the profile token and
default. -/
def PROFILES_keys : List String := ["vocpub"]

/-- The result of the external `pyshacl.validate` collaborator, called
with a data-file path and a SHACL shape-graph path:
`(conforms, results_graph, results_text)`; only the first and third
components are consulted. -/
abbrev ShaclValidate := String → String → Bool × String × String

/-- `rdf_to_excel` from convert.py: the RDF-extension gate, the profile
gate, then SHACL validation against the hard-coded shape file
`validator.vocpub.ttl`; on conformance failure a `ConversionError`
embedding the validator's report text; on success no output at all (the
extraction into a workbook is commented out, so the function falls off
the end, i.e. returns the Python `None` modelled as `.ok none`). -/
def rdf_to_excel (validate : ShaclValidate) (file_name : String)
    (profile : String) : Except PyError (Option String) :=
  if ¬ (RDF_FILE_ENDINGS.any fun e => pyEndswith file_name e) then
    .error (.valueError
      ("Files for conversion to Excel must end with one of the RDF file formats: '"
        ++ String.intercalate "', '" RDF_FILE_ENDINGS ++ "'"))
  else if ¬ (PROFILES_keys.contains profile) then
    .error (.valueError
      ("The profile chosen for conversion must be one of '"
        ++ String.intercalate "', '" PROFILES_keys ++ "'. 'vocpub' is default"))
  else
    let r := validate file_name "validator.vocpub.ttl"
    if r.1 = false then
      .error (.conversionError
        ("The file you supplied is not valid according to the " ++ profile
          ++ " profile. The validation errors are:\n\n" ++ r.2.2))
    else
      .ok none

end Convert

namespace Utils

/-- `EXCEL_FILE_ENDINGS` from utils.py (with leading dot, matched against
`Path.suffix`). -/
def EXCEL_FILE_ENDINGS : List String := [".xlsx"]

/-- `RDF_FILE_ENDINGS` from utils.py: extension to serialization token. -/
def RDF_FILE_ENDINGS : List (String × String) :=
  [(".ttl", "ttl"), (".rdf", "xml"), (".xml", "xml"),
   (".json-ld", "json-ld"), (".json", "json-ld"),
   (".nt", "nt"), (".n3", "n3")]

/-- `KNOWN_FILE_ENDINGS` from utils.py: the RDF ending keys plus the
Excel endings. -/
def KNOWN_FILE_ENDINGS : List String :=
  (RDF_FILE_ENDINGS.map Prod.fst) ++ EXCEL_FILE_ENDINGS

/-- `KNOWN_TEMPLATE_VERSIONS` from utils.py. -/
def KNOWN_TEMPLATE_VERSIONS : List String := ["0.4.3"]

/-- A loaded workbook: named worksheets in order, each worksheet a map
from cell coordinate ("J11", ...) to its value.  `wb["Introduction"]`
raising `KeyError` on a missing sheet is modelled by the lookup
returning `none`. -/
structure Workbook where
  sheets : List (String × (String → CellValue))

/-- `wb[name]`: the first worksheet with the given name, if any. -/
def wbLookup (wb : Workbook) (name : String) : Option (String → CellValue) :=
  (wb.sheets.find? fun p => p.1 = name).map Prod.snd

/-- Python's `str()` rendering of a cell value in an f-string:
`None` for an absent value. -/
def pyStr : CellValue → String
  | none => "None"
  | some s => s

/-- `get_template_version` from utils.py: read cell J11 of the
"Introduction" sheet; a missing sheet (`KeyError`) is turned into a
`Voc4catError` "The version of the Excel template cannot be
determined.". -/
def get_template_version (wb : Workbook) : Except String CellValue :=
  match wbLookup wb "Introduction" with
  | none => .error "The version of the Excel template cannot be determined."
  | some intro_sheet => .ok (intro_sheet "J11")

/-- `is_supported_template` from utils.py: read the template version and
raise a `Voc4catError` listing `KNOWN_TEMPLATE_VERSIONS` when it is not
a known version; return `True` otherwise.  The workbook is only read,
never written (the embedding is pure, as is the source). -/
def is_supported_template (wb : Workbook) : Except String Bool :=
  match get_template_version wb with
  | .error e => .error e
  | .ok template_version =>
    if (KNOWN_TEMPLATE_VERSIONS.map Option.some).contains template_version then
      .ok true
    else
      .error ("Unsupported template version. Supported are "
        ++ String.intercalate ", " KNOWN_TEMPLATE_VERSIONS
        ++ ", you supplied " ++ pyStr template_version ++ ".")

/-- `split_and_tidy` from utils.py: `[]` for an empty or absent value;
otherwise trim the value, split on commas, trim each token and keep only
the non-empty tokens (`[x for x in entries if x]`). -/
def split_and_tidy (cell_value : CellValue) : List String :=
  if cell_value = some "" ∨ cell_value = none then []
  else
    match cell_value with
    | none => []
    | some v =>
      let entries := (pySplitChar ',' (pyStrip v)).map pyStrip
      entries.filter fun x => x ≠ ""

/-- `os.path.normcase` on POSIX: the identity on path strings. -/
def os_normcase (s : String) : String := s

/-- The base part of `os.path.splitext`: everything before the last dot.
The callers only apply this to paths produced by `glob(dir + "/*.*")`
and filtered to a known file ending, so the base name always contains a
non-leading dot and the directory part contributes no trailing dot. -/
def splitext_base (f : String) : String :=
  let parts := pySplitChar '.' f
  if parts.length ≤ 1 then f
  else String.intercalate "." parts.dropLast

/-- The result of `has_file_in_multiple_formats`: Python `False` or the
list of duplicated base names. -/
inductive MultiFormatCheck where
  | noMultiple
  | multiple (names : List String)
deriving DecidableEq, Repr

/-- The Python duplicate-collection idiom
`[x for x in file_names if x in seen or seen.add(x)]`: keep each
occurrence whose value was already seen, adding unseen values to
`seen`. -/
def dupsSeen (seen : List String) : List String → List String
  | [] => []
  | x :: xs =>
    if x ∈ seen then x :: dupsSeen seen xs
    else dupsSeen (x :: seen) xs

/-- The `files` and `file_names` locals of
`has_file_in_multiple_formats`: normcase each scanned path, keep those
with a known file ending, drop the extensions; in scan order. -/
def file_names_of (dir_files : List String) : List String :=
  (((dir_files.map os_normcase).filter fun f =>
    KNOWN_FILE_ENDINGS.any fun e => pyEndswith f e).map splitext_base)

/-- `has_file_in_multiple_formats` from utils.py.  `dir_files` is the
scan-order result of `glob.glob(os.path.join(dir_, "*.*"))` (the
directory-listing collaborator); the function keeps the files with a
known file ending, drops their extensions (`file_names_of`), and
returns `False` when the base names are pairwise distinct
(`len(file_names) == len(set(file_names))`), else the list of base
names already seen earlier in the scan. -/
def has_file_in_multiple_formats (dir_files : List String) : MultiFormatCheck :=
  let file_names := file_names_of dir_files
  if file_names.length = file_names.dedup.length then
    MultiFormatCheck.noMultiple
  else
    MultiFormatCheck.multiple (dupsSeen [] file_names)

end Utils

/-- The file extension in the sense of Python `pathlib.Path.suffix` (and
of the spec's "file extension"): the final dot-prefixed token of the
base name, empty when the base name has no interior dot. -/
def pathSuffix (name : String) : String :=
  let base := (pySplitChar '/' name).getLastD ""
  let parts := pySplitChar '.' base
  if parts.length ≤ 1 then ""
  else
    let pre := String.intercalate "." parts.dropLast
    let ext := parts.getLastD ""
    if pre = "" ∨ ext = "" then "" else "." ++ ext

/-! ## Concrete fixtures used to instantiate the theorems -/

/-- A Domain Model validator that accepts every record (every pydantic
construction succeeds). -/
def acceptAll {α : Type} : Convert.Validator α := fun _ => .ok ()

/-- A Domain Model validator that rejects every record with the given
validation message. -/
def rejectWith {α : Type} (msg : String) : Convert.Validator α :=
  fun _ => .error msg

/-- A worksheet row with only the first-column cell set. -/
def rowA (i : Nat) (a : CellValue) : Convert.Row :=
  ⟨i, a, none, none, none, none, none, none, none⟩

/-- A fully populated concept data row. -/
def exConceptRow : Convert.Row :=
  ⟨4, some "ex:c1", some "Concept 1", some " a, b ", some "definition",
   some "ex:c2, ex:c3", some "id1", some "ex:vocab", some "prov"⟩

/-- A fully populated collection data row. -/
def exCollectionRow : Convert.Row :=
  ⟨6, some "ex:col1", some "Collection 1", some "col def",
   some "ex:c1, ex:c2", some "prov", none, none, none⟩

/-- A worksheet with empty header cells and no data rows. -/
def emptySheet : Convert.Sheet :=
  ⟨none, none, none, none, none, none, none, none, none, none, none, []⟩

/-- A small well-formed worksheet: two header rows, the concept sentinel,
one concept row, the collection sentinel, one collection row. -/
def exSheet : Convert.Sheet :=
  ⟨some "ex:scheme", some "T", some "D", some "2021", some "2021",
   some "c", some "p", some "1", some "prov", some "cust", some "pid",
   [rowA 1 (some "Vocabulary"), rowA 2 none,
    rowA 3 (some "Concept URI"), exConceptRow,
    rowA 5 (some "Collection URI"), exCollectionRow]⟩

/-- A workbook without an "Introduction" sheet. -/
def wbNoIntro : Utils.Workbook := ⟨[]⟩

/-- A workbook whose "Introduction" sheet declares version 0.4.2. -/
def wbOldVersion : Utils.Workbook :=
  ⟨[("Introduction", fun c => if c = "J11" then some "0.4.2" else none)]⟩

/-- A workbook whose "Introduction" sheet declares version 0.4.3. -/
def wbSupported : Utils.Workbook :=
  ⟨[("Introduction", fun c => if c = "J11" then some "0.4.3" else none)]⟩

/-- A SHACL validator stub that reports non-conformance. -/
def shaclFail : Convert.ShaclValidate := fun _ _ => (false, "", "REPORT")

/-- A SHACL validator stub that reports conformance. -/
def shaclPass : Convert.ShaclValidate := fun _ _ => (true, "", "")

/-! ## Helper lemmas on the row-extraction loop -/

namespace Convert

/-- A data row accepted in the concepts section: non-empty first-column
cell, no sentinel text, and the Concept validator accepts its fields. -/
def GoodConceptRow (vcon : Validator Concept) (r : Row) : Prop :=
  ∃ a, r.A = some a ∧ a ≠ "Concept URI" ∧ a ≠ "Collection URI" ∧
    vcon (mkConcept r) = .ok ()

/-- A data row accepted in the collections section. -/
def GoodCollectionRow (vcol : Validator Collection) (r : Row) : Prop :=
  ∃ a, r.A = some a ∧ a ≠ "Concept URI" ∧ a ≠ "Collection URI" ∧
    vcol (mkCollection r) = .ok ()

theorem stepRow_conceptSentinel (vcon : Validator Concept)
    (vcol : Validator Collection) (st : ExtractState) (r : Row)
    (hA : r.A = some "Concept URI") :
    stepRow vcon vcol st r = .ok { st with process_concept := true } := by
  simp [stepRow, hA]

theorem stepRow_collectionSentinel (vcon : Validator Concept)
    (vcol : Validator Collection) (st : ExtractState) (r : Row)
    (hA : r.A = some "Collection URI") :
    stepRow vcon vcol st r
      = .ok { st with process_concept := false, process_collection := true } := by
  simp [stepRow, hA]

theorem stepRow_blank (vcon : Validator Concept) (vcol : Validator Collection)
    (st : ExtractState) (r : Row) (hA : r.A = none) :
    stepRow vcon vcol st r = .ok st := by
  cases hpc : st.process_concept <;> cases hpl : st.process_collection <;>
    simp [stepRow, hA, hpc, hpl]

theorem stepRow_scanning (vcon : Validator Concept) (vcol : Validator Collection)
    (st : ExtractState) (r : Row)
    (hpc : st.process_concept = false) (hpl : st.process_collection = false)
    (h1 : r.A ≠ some "Concept URI") (h2 : r.A ≠ some "Collection URI") :
    stepRow vcon vcol st r = .ok st := by
  simp [stepRow, h1, h2, hpc, hpl]

theorem stepRow_concept_good (vcon : Validator Concept)
    (vcol : Validator Collection) (st : ExtractState) (r : Row)
    (hpc : st.process_concept = true) (h : GoodConceptRow vcon r) :
    stepRow vcon vcol st r
      = .ok { st with concepts := st.concepts ++ [mkConcept r] } := by
  obtain ⟨a, hA, h1, h2, hv⟩ := h
  simp [stepRow, hA, h1, h2, hpc, hv]

theorem stepRow_concept_bad (vcon : Validator Concept)
    (vcol : Validator Collection) (st : ExtractState) (r : Row) (a : String)
    (m : String) (hpc : st.process_concept = true) (hA : r.A = some a)
    (h1 : a ≠ "Concept URI") (h2 : a ≠ "Collection URI")
    (hv : vcon (mkConcept r) = .error m) :
    stepRow vcon vcol st r
      = .error ("Concept processing error, row " ++ toString r.idx
          ++ ", error: " ++ m) := by
  simp [stepRow, hA, h1, h2, hpc, hv]

theorem stepRow_collection_good (vcon : Validator Concept)
    (vcol : Validator Collection) (st : ExtractState) (r : Row)
    (hpc : st.process_concept = false) (hpl : st.process_collection = true)
    (h : GoodCollectionRow vcol r) :
    stepRow vcon vcol st r
      = .ok { st with collections := st.collections ++ [mkCollection r] } := by
  obtain ⟨a, hA, h1, h2, hv⟩ := h
  simp [stepRow, hA, h1, h2, hpc, hpl, hv]

theorem stepRow_collection_bad (vcon : Validator Concept)
    (vcol : Validator Collection) (st : ExtractState) (r : Row) (a : String)
    (m : String) (hpc : st.process_concept = false)
    (hpl : st.process_collection = true) (hA : r.A = some a)
    (h1 : a ≠ "Concept URI") (h2 : a ≠ "Collection URI")
    (hv : vcol (mkCollection r) = .error m) :
    stepRow vcon vcol st r
      = .error ("Collection processing error, row " ++ toString r.idx
          ++ ", error: " ++ m) := by
  simp [stepRow, hA, h1, h2, hpc, hpl, hv]

theorem runRows_cons_ok (vcon : Validator Concept) (vcol : Validator Collection)
    (st st' : ExtractState) (r : Row)
    (h : stepRow vcon vcol st r = .ok st') (rs : List Row) :
    runRows vcon vcol st (r :: rs) = runRows vcon vcol st' rs := by
  simp [runRows, h]

theorem runRows_cons_err (vcon : Validator Concept) (vcol : Validator Collection)
    (st : ExtractState) (r : Row) (e : String)
    (h : stepRow vcon vcol st r = .error e) (rs : List Row) :
    runRows vcon vcol st (r :: rs) = .error e := by
  simp [runRows, h]

theorem runRows_append (vcon : Validator Concept) (vcol : Validator Collection)
    (l1 l2 : List Row) : ∀ st : ExtractState,
    runRows vcon vcol st (l1 ++ l2)
      = match runRows vcon vcol st l1 with
        | .ok st' => runRows vcon vcol st' l2
        | .error e => .error e := by
  induction l1 with
  | nil => intro st; rfl
  | cons r rs ih =>
    intro st
    cases h : stepRow vcon vcol st r with
    | ok st' =>
      rw [show (r :: rs) ++ l2 = r :: (rs ++ l2) from rfl,
          runRows_cons_ok vcon vcol st st' r h (rs ++ l2),
          runRows_cons_ok vcon vcol st st' r h rs]
      exact ih st'
    | error e =>
      rw [show (r :: rs) ++ l2 = r :: (rs ++ l2) from rfl,
          runRows_cons_err vcon vcol st r e h (rs ++ l2),
          runRows_cons_err vcon vcol st r e h rs]

theorem runRows_scanning_phase (vcon : Validator Concept)
    (vcol : Validator Collection) (rows : List Row) :
    ∀ st : ExtractState, st.process_concept = false →
    st.process_collection = false →
    (∀ r ∈ rows, r.A ≠ some "Concept URI" ∧ r.A ≠ some "Collection URI") →
    runRows vcon vcol st rows = .ok st := by
  induction rows with
  | nil => intro st _ _ _; rfl
  | cons r rs ih =>
    intro st hpc hpl h
    have hr := h r (List.mem_cons_self r rs)
    rw [runRows_cons_ok vcon vcol st st r
      (stepRow_scanning vcon vcol st r hpc hpl hr.1 hr.2) rs]
    exact ih st hpc hpl fun x hx => h x (List.mem_cons_of_mem r hx)

theorem runRows_concepts_phase (vcon : Validator Concept)
    (vcol : Validator Collection) (rows : List Row) :
    ∀ st : ExtractState, st.process_concept = true →
    (∀ r ∈ rows, GoodConceptRow vcon r) →
    runRows vcon vcol st rows
      = .ok { st with concepts := st.concepts ++ rows.map mkConcept } := by
  induction rows with
  | nil => intro st _ _; simp [runRows]
  | cons r rs ih =>
    intro st hpc h
    have hr := h r (List.mem_cons_self r rs)
    rw [runRows_cons_ok vcon vcol st _ r
      (stepRow_concept_good vcon vcol st r hpc hr) rs]
    rw [ih { st with concepts := st.concepts ++ [mkConcept r] } hpc
      fun x hx => h x (List.mem_cons_of_mem r hx)]
    simp

theorem runRows_collections_phase (vcon : Validator Concept)
    (vcol : Validator Collection) (rows : List Row) :
    ∀ st : ExtractState, st.process_concept = false →
    st.process_collection = true →
    (∀ r ∈ rows, GoodCollectionRow vcol r) →
    runRows vcon vcol st rows
      = .ok { st with collections := st.collections ++ rows.map mkCollection } := by
  induction rows with
  | nil => intro st _ _ _; simp [runRows]
  | cons r rs ih =>
    intro st hpc hpl h
    have hr := h r (List.mem_cons_self r rs)
    rw [runRows_cons_ok vcon vcol st _ r
      (stepRow_collection_good vcon vcol st r hpc hpl hr) rs]
    rw [ih { st with collections := st.collections ++ [mkCollection r] } hpc hpl
      fun x hx => h x (List.mem_cons_of_mem r hx)]
    simp

end Convert



/-! ## Claim C1 -/

/-- C1: For every well-formed worksheet following the fixed layout —
non-sentinel preamble rows, the "Concept URI" sentinel, concept data rows
accepted by the Domain Model, the "Collection URI" sentinel, then
collection data rows accepted by the Domain Model —
`extract_concepts_and_collections` returns the concepts and then the
collections in worksheet row order, each concept built from the fixed
column offsets A=uri, B=pref_label, C=alt_labels (split), D=definition,
E=children (split), F=other_ids (split), G=home_vocab_uri, H=provenance
(`mkConcept`), and each collection from A=uri, B=pref_label,
C=definition, D=members (split), E=provenance (`mkCollection`). -/
theorem C1_row_extractor_layout (vcon : Convert.Validator Convert.Concept)
    (vcol : Convert.Validator Convert.Collection)
    (pre crows lrows : List Convert.Row) (sentC sentL : Convert.Row)
    (hpre : ∀ r ∈ pre, r.A ≠ some "Concept URI" ∧ r.A ≠ some "Collection URI")
    (hC : sentC.A = some "Concept URI") (hL : sentL.A = some "Collection URI")
    (hcr : ∀ r ∈ crows, Convert.GoodConceptRow vcon r)
    (hlr : ∀ r ∈ lrows, Convert.GoodCollectionRow vcol r) :
    Convert.extract_concepts_and_collections vcon vcol
        (pre ++ sentC :: (crows ++ sentL :: lrows))
      = .ok (crows.map Convert.mkConcept, lrows.map Convert.mkCollection) := by
  have A : Convert.runRows vcon vcol ⟨[], [], false, false⟩
      (pre ++ sentC :: (crows ++ sentL :: lrows))
      = .ok ⟨crows.map Convert.mkConcept, lrows.map Convert.mkCollection,
          false, true⟩ := by
    rw [Convert.runRows_append,
      Convert.runRows_scanning_phase vcon vcol pre ⟨[], [], false, false⟩
        rfl rfl hpre]
    show Convert.runRows vcon vcol ⟨[], [], false, false⟩
      (sentC :: (crows ++ sentL :: lrows)) = _
    rw [Convert.runRows_cons_ok vcon vcol ⟨[], [], false, false⟩
      ⟨[], [], true, false⟩ sentC
      (Convert.stepRow_conceptSentinel vcon vcol _ sentC hC) _]
    rw [Convert.runRows_append,
      Convert.runRows_concepts_phase vcon vcol crows ⟨[], [], true, false⟩
        rfl hcr]
    show Convert.runRows vcon vcol
      ⟨[] ++ crows.map Convert.mkConcept, [], true, false⟩
      (sentL :: lrows) = _
    rw [Convert.runRows_cons_ok vcon vcol _
      ⟨[] ++ crows.map Convert.mkConcept, [], false, true⟩ sentL
      (Convert.stepRow_collectionSentinel vcon vcol _ sentL hL) _]
    rw [Convert.runRows_collections_phase vcon vcol lrows
      ⟨[] ++ crows.map Convert.mkConcept, [], false, true⟩ rfl rfl hlr]
    simp
  unfold Convert.extract_concepts_and_collections
  rw [show Convert.initState = (⟨[], [], false, false⟩ : Convert.ExtractState)
    from rfl, A]

/-- C1 witness: the layout theorem applied to a concrete six-row
worksheet with one concept row and one collection row. -/
theorem C1_row_extractor_layout_witness :
    Convert.extract_concepts_and_collections acceptAll acceptAll
        ([rowA 1 (some "Vocabulary"), rowA 2 none]
          ++ rowA 3 (some "Concept URI")
            :: ([exConceptRow] ++ rowA 5 (some "Collection URI")
              :: [exCollectionRow]))
      = .ok ([Convert.mkConcept exConceptRow],
             [Convert.mkCollection exCollectionRow]) := by
  refine C1_row_extractor_layout acceptAll acceptAll
    [rowA 1 (some "Vocabulary"), rowA 2 none] [exConceptRow]
    [exCollectionRow] (rowA 3 (some "Concept URI"))
    (rowA 5 (some "Collection URI")) (by decide) rfl rfl ?_ ?_
  · intro r hr
    rw [List.mem_singleton] at hr
    subst hr
    exact ⟨"ex:c1", rfl, by decide, by decide, rfl⟩
  · intro r hr
    rw [List.mem_singleton] at hr
    subst hr
    exact ⟨"ex:col1", rfl, by decide, by decide, rfl⟩

/-! ## Claim C2 -/
namespace Convert

theorem stepRow_ok_cases (vcon : Validator Concept) (vcol : Validator Collection)
    (st : ExtractState) (r : Row) (st' : ExtractState)
    (h : stepRow vcon vcol st r = .ok st') :
    (r.A = some "Concept URI" ∧ st' = { st with process_concept := true }) ∨
    (r.A ≠ some "Concept URI" ∧ r.A = some "Collection URI" ∧
      st' = { st with process_concept := false, process_collection := true }) ∨
    (r.A ≠ some "Concept URI" ∧ r.A ≠ some "Collection URI" ∧
      (st' = st ∨
       (st.process_concept = true ∧
         st' = { st with concepts := st.concepts ++ [mkConcept r] }) ∨
       (st.process_concept = false ∧ st.process_collection = true ∧
         st' = { st with collections := st.collections ++ [mkCollection r] }))) := by
  unfold stepRow at h
  by_cases h1 : r.A = some "Concept URI"
  · rw [if_pos h1] at h
    simp only [Except.ok.injEq] at h
    exact Or.inl ⟨h1, h.symm⟩
  · rw [if_neg h1] at h
    by_cases h2 : r.A = some "Collection URI"
    · rw [if_pos h2] at h
      simp only [Except.ok.injEq] at h
      exact Or.inr (Or.inl ⟨h1, h2, h.symm⟩)
    · rw [if_neg h2] at h
      refine Or.inr (Or.inr ⟨h1, h2, ?_⟩)
      by_cases h3 : st.process_concept = true
      · rw [if_pos h3] at h
        cases hA : r.A with
        | none => rw [hA] at h; simp only [Except.ok.injEq] at h; exact Or.inl h.symm
        | some a =>
          rw [hA] at h
          cases hv : vcon (mkConcept r) with
          | ok u => simp only [hv, Except.ok.injEq] at h
                    exact Or.inr (Or.inl ⟨h3, h.symm⟩)
          | error e => simp [hv] at h
      · rw [if_neg h3] at h
        by_cases h4 : st.process_collection = true
        · rw [if_pos h4] at h
          cases hA : r.A with
          | none => rw [hA] at h; simp only [Except.ok.injEq] at h; exact Or.inl h.symm
          | some a =>
            rw [hA] at h
            cases hv : vcol (mkCollection r) with
            | ok u => simp only [hv, Except.ok.injEq] at h
                      exact Or.inr (Or.inr ⟨by simpa using h3, h4, h.symm⟩)
            | error e => simp [hv] at h
        · simp only [if_neg h4, Except.ok.injEq] at h
          exact Or.inl h.symm

end Convert

namespace Convert

theorem runRows_no_concepts_after (vcon : Validator Concept)
    (vcol : Validator Collection) (rows : List Row) :
    ∀ st st' : ExtractState, st.process_concept = false →
    st.process_collection = true →
    (∀ r ∈ rows, r.A ≠ some "Concept URI") →
    runRows vcon vcol st rows = .ok st' →
    st'.concepts = st.concepts := by
  induction rows with
  | nil => intro st st' _ _ _ hrun
           simp only [runRows, Except.ok.injEq] at hrun
           rw [← hrun]
  | cons r rs ih =>
    intro st st' hpc hpl h hrun
    have hr := h r (List.mem_cons_self r rs)
    unfold runRows at hrun
    cases hstep : stepRow vcon vcol st r with
    | error e => rw [hstep] at hrun; cases hrun
    | ok st1 =>
      rw [hstep] at hrun
      rcases stepRow_ok_cases vcon vcol st r st1 hstep with
        ⟨hA, _⟩ | ⟨_, _, hst1⟩ | ⟨_, _, hcase⟩
      · exact absurd hA hr
      · have h1 : st1.process_concept = false := by rw [hst1]
        have h2 : st1.process_collection = true := by rw [hst1]
        have h3 : st1.concepts = st.concepts := by rw [hst1]
        rw [ih st1 st' h1 h2 (fun x hx => h x (List.mem_cons_of_mem r hx)) hrun, h3]
      · rcases hcase with hst1 | ⟨hpc1, _⟩ | ⟨_, _, hst1⟩
        · rw [ih st1 st' (hst1 ▸ hpc) (hst1 ▸ hpl)
            (fun x hx => h x (List.mem_cons_of_mem r hx)) hrun, hst1]
        · rw [hpc1] at hpc; cases hpc
        · have h1 : st1.process_concept = false := by rw [hst1]; exact hpc
          have h2 : st1.process_collection = true := by rw [hst1]; exact hpl
          have h3 : st1.concepts = st.concepts := by rw [hst1]
          rw [ih st1 st' h1 h2 (fun x hx => h x (List.mem_cons_of_mem r hx)) hrun, h3]

end Convert

/-- C2 (amended): during one run of `extract_concepts_and_collections`
the collections flag, once set, is never cleared, and it is set only by a
first-column cell equal to "Collection URI" (so the machine transitions
into the collections state exactly at the first such sentinel); the
sentinel row itself only switches the flags and is never parsed as a
data row; and after the transition a concept-data row contributes no
concept entity provided no later "Concept URI" sentinel occurs (such a
sentinel re-enables concept parsing, refuting the unconditional claim). -/
theorem C2_collections_transition (vcon : Convert.Validator Convert.Concept)
    (vcol : Convert.Validator Convert.Collection) :
    (∀ st r st', Convert.stepRow vcon vcol st r = .ok st' →
       st.process_collection = true → st'.process_collection = true) ∧
    (∀ st r st', Convert.stepRow vcon vcol st r = .ok st' →
       st.process_collection = false → st'.process_collection = true →
       r.A = some "Collection URI") ∧
    (∀ st r, r.A = some "Collection URI" →
       Convert.stepRow vcon vcol st r
         = .ok { st with process_concept := false,
                         process_collection := true }) ∧
    (∀ rows st st', st.process_concept = false →
       st.process_collection = true →
       (∀ r ∈ rows, r.A ≠ some "Concept URI") →
       Convert.runRows vcon vcol st rows = .ok st' →
       st'.concepts = st.concepts) := by
  refine ⟨?_, ?_, ?_, ?_⟩
  · intro st r st' h hpl
    rcases Convert.stepRow_ok_cases vcon vcol st r st' h with
      ⟨_, hst⟩ | ⟨_, _, hst⟩ | ⟨_, _, hst | ⟨_, hst⟩ | ⟨_, _, hst⟩⟩ <;>
      rw [hst] <;> simp [hpl]
  · intro st r st' h hpl hpl'
    rcases Convert.stepRow_ok_cases vcon vcol st r st' h with
      ⟨_, hst⟩ | ⟨_, h2, _⟩ | ⟨_, _, hst | ⟨_, hst⟩ | ⟨_, _, hst⟩⟩
    · rw [hst] at hpl'; simp at hpl'; rw [hpl'] at hpl; cases hpl
    · exact h2
    · rw [hst] at hpl'; rw [hpl'] at hpl; cases hpl
    · rw [hst] at hpl'; simp at hpl'; rw [hpl'] at hpl; cases hpl
    · rw [hst] at hpl'; simp at hpl'; rw [hpl'] at hpl; cases hpl
  · intro st r hA
    exact Convert.stepRow_collectionSentinel vcon vcol st r hA
  · intro rows st st' hpc hpl h hrun
    exact Convert.runRows_no_concepts_after vcon vcol rows st st' hpc hpl h hrun

/-- C2 witness: the amended-claim theorem applied at concrete inputs: a
collection data row keeps the collections flag set and adds no concept. -/
theorem C2_collections_transition_witness :
    (⟨[], [Convert.mkCollection (rowA 6 (some "ex:col2"))], false, true⟩
        : Convert.ExtractState).process_collection = true ∧
    (⟨[], [Convert.mkCollection (rowA 6 (some "ex:col2"))], false, true⟩
        : Convert.ExtractState).concepts
      = (⟨[], [], false, true⟩ : Convert.ExtractState).concepts := by
  constructor
  · exact (C2_collections_transition acceptAll acceptAll).1
      ⟨[], [], false, true⟩ (rowA 6 (some "ex:col2")) _ rfl rfl
  · exact (C2_collections_transition acceptAll acceptAll).2.2.2
      [rowA 6 (some "ex:col2"), rowA 7 none] ⟨[], [], false, true⟩ _
      rfl rfl (by decide) rfl

/-- C2 counterexample: on a worksheet whose first column reads
"Concept URI", "Collection URI", "Concept URI", "ex:c9", the row after
the collections transition IS parsed as a concept and contributes an
entity (the second "Concept URI" sentinel re-enables concept parsing),
refuting the claim that after the transition any concept row is
ignored. -/
theorem C2_counterexample :
    Convert.extract_concepts_and_collections acceptAll acceptAll
      [rowA 1 (some "Concept URI"), rowA 2 (some "Collection URI"),
       rowA 3 (some "Concept URI"), rowA 4 (some "ex:c9")]
    = .ok ([Convert.mkConcept (rowA 4 (some "ex:c9"))], []) := by rfl

/-! ## Claim C3 -/

/-- C3: the first Domain Model validation failure aborts the conversion
with a `ConversionError` wrapping the underlying message — for the
concept-scheme header block without row context, for concept and
collection rows with the originating row number and the section name —
and no entities are returned (the result is the error alone, whatever
valid rows precede or follow the failing one). -/
theorem C3_fail_fast_wrapping (vcs : Convert.Validator Convert.ConceptScheme)
    (vcon : Convert.Validator Convert.Concept)
    (vcol : Convert.Validator Convert.Collection) :
    (∀ name sheet m, (Convert.EXCEL_FILE_ENDINGS.any fun e =>
        pyEndswith name e) = true →
      vcs (Convert.mkConceptScheme sheet) = .error m →
      Convert.excel_to_rdf vcs vcon vcol name sheet
        = .error (.conversionError ("ConceptScheme processing error: " ++ m))) ∧
    (∀ (sentC bad : Convert.Row) (good rest : List Convert.Row) (a m : String),
      sentC.A = some "Concept URI" →
      (∀ r ∈ good, Convert.GoodConceptRow vcon r) →
      bad.A = some a → a ≠ "Concept URI" → a ≠ "Collection URI" →
      vcon (Convert.mkConcept bad) = .error m →
      Convert.extract_concepts_and_collections vcon vcol
          (sentC :: (good ++ bad :: rest))
        = .error ("Concept processing error, row " ++ toString bad.idx
            ++ ", error: " ++ m)) ∧
    (∀ (sentC sentL bad : Convert.Row) (goodC goodL rest : List Convert.Row)
        (a m : String),
      sentC.A = some "Concept URI" → sentL.A = some "Collection URI" →
      (∀ r ∈ goodC, Convert.GoodConceptRow vcon r) →
      (∀ r ∈ goodL, Convert.GoodCollectionRow vcol r) →
      bad.A = some a → a ≠ "Concept URI" → a ≠ "Collection URI" →
      vcol (Convert.mkCollection bad) = .error m →
      Convert.extract_concepts_and_collections vcon vcol
          (sentC :: (goodC ++ sentL :: (goodL ++ bad :: rest)))
        = .error ("Collection processing error, row " ++ toString bad.idx
            ++ ", error: " ++ m)) := by
  refine ⟨?_, ?_, ?_⟩
  · intro name sheet m hx hv
    simp [Convert.excel_to_rdf, hx, hv]
  · intro sentC bad good rest a m hC hcr hA h1 h2 hv
    have A : Convert.runRows vcon vcol ⟨[], [], false, false⟩
        (sentC :: (good ++ bad :: rest))
        = .error ("Concept processing error, row " ++ toString bad.idx
            ++ ", error: " ++ m) := by
      rw [Convert.runRows_cons_ok vcon vcol ⟨[], [], false, false⟩
        ⟨[], [], true, false⟩ sentC
        (Convert.stepRow_conceptSentinel vcon vcol _ sentC hC) _]
      rw [Convert.runRows_append,
        Convert.runRows_concepts_phase vcon vcol good ⟨[], [], true, false⟩
          rfl hcr]
      show Convert.runRows vcon vcol
        ⟨[] ++ good.map Convert.mkConcept, [], true, false⟩ (bad :: rest) = _
      exact Convert.runRows_cons_err vcon vcol _ bad _
        (Convert.stepRow_concept_bad vcon vcol _ bad a m rfl hA h1 h2 hv) rest
    unfold Convert.extract_concepts_and_collections
    rw [show Convert.initState = (⟨[], [], false, false⟩ :
      Convert.ExtractState) from rfl, A]
  · intro sentC sentL bad goodC goodL rest a m hC hL hcr hlr hA h1 h2 hv
    have A : Convert.runRows vcon vcol ⟨[], [], false, false⟩
        (sentC :: (goodC ++ sentL :: (goodL ++ bad :: rest)))
        = .error ("Collection processing error, row " ++ toString bad.idx
            ++ ", error: " ++ m) := by
      rw [Convert.runRows_cons_ok vcon vcol ⟨[], [], false, false⟩
        ⟨[], [], true, false⟩ sentC
        (Convert.stepRow_conceptSentinel vcon vcol _ sentC hC) _]
      rw [Convert.runRows_append,
        Convert.runRows_concepts_phase vcon vcol goodC ⟨[], [], true, false⟩
          rfl hcr]
      show Convert.runRows vcon vcol
        ⟨[] ++ goodC.map Convert.mkConcept, [], true, false⟩
        (sentL :: (goodL ++ bad :: rest)) = _
      rw [Convert.runRows_cons_ok vcon vcol _
        ⟨[] ++ goodC.map Convert.mkConcept, [], false, true⟩ sentL
        (Convert.stepRow_collectionSentinel vcon vcol _ sentL hL) _]
      rw [Convert.runRows_append,
        Convert.runRows_collections_phase vcon vcol goodL
          ⟨[] ++ goodC.map Convert.mkConcept, [], false, true⟩ rfl rfl hlr]
      show Convert.runRows vcon vcol
        ⟨[] ++ goodC.map Convert.mkConcept, [] ++ goodL.map Convert.mkCollection,
          false, true⟩ (bad :: rest) = _
      exact Convert.runRows_cons_err vcon vcol _ bad _
        (Convert.stepRow_collection_bad vcon vcol _ bad a m rfl rfl hA h1 h2 hv)
        rest
    unfold Convert.extract_concepts_and_collections
    rw [show Convert.initState = (⟨[], [], false, false⟩ :
      Convert.ExtractState) from rfl, A]

/-- C3 witness: a concept row rejected by the Domain Model aborts a
concrete extraction with the row-and-section-carrying message, after one
valid concept row. -/
theorem C3_fail_fast_wrapping_witness :
    Convert.extract_concepts_and_collections (rejectWith "field required")
        acceptAll
        (rowA 3 (some "Concept URI")
          :: ([] ++ rowA 4 (some "ex:bad") :: [exCollectionRow]))
      = .error "Concept processing error, row 4, error: field required" := by
  refine (C3_fail_fast_wrapping acceptAll (rejectWith "field required")
    acceptAll).2.1 (rowA 3 (some "Concept URI")) (rowA 4 (some "ex:bad"))
    [] [exCollectionRow] "ex:bad" "field required" rfl ?_ rfl
    (by decide) (by decide) rfl
  intro r hr
  cases hr

/-! ## Claim C4 -/

/-- C4 counterexample: the convert.py variant of `split_and_tidy` does
NOT remove empty tokens — on "a,,b" it returns ["a", "", "b"], refuting
the claim that both variants drop tokens that are empty after
trimming. -/
theorem C4_counterexample :
    Convert.split_and_tidy (some "a,,b") = some ["a", "", "b"] ∧
    Convert.split_and_tidy (some "a,,b") ≠ some ["a", "b"] := by
  exact ⟨rfl, by decide⟩

/-- C4 (amended): for a non-absent value the utils.py variant returns
the comma-separated tokens in order, trimmed, with empty tokens dropped,
while the convert.py variant returns the trimmed tokens in order KEEPING
empty tokens; an absent value yields the empty list (utils variant,
which also maps the empty string to the empty list) or the `none`
sentinel (convert variant).  On every value the stricter result is the
looser result with empty tokens dropped. -/
theorem C4_split_and_tidy_amended (cv : CellValue) (s : String) :
    Convert.split_and_tidy none = none ∧
    Utils.split_and_tidy none = [] ∧
    Utils.split_and_tidy (some "") = [] ∧
    Convert.split_and_tidy (some s)
      = some ((pySplitChar ',' (pyStrip s)).map pyStrip) ∧
    Utils.split_and_tidy (some s)
      = ((pySplitChar ',' (pyStrip s)).map pyStrip).filter
          (fun t => t ≠ "") ∧
    Utils.split_and_tidy cv
      = ((Convert.split_and_tidy cv).getD []).filter (fun t => t ≠ "") := by
  refine ⟨rfl, rfl, rfl, rfl, ?_, ?_⟩
  · by_cases hv : s = ""
    · subst hv; rfl
    · simp [Utils.split_and_tidy, hv]
  · cases cv with
    | none => rfl
    | some v =>
      by_cases hv : v = ""
      · subst hv; rfl
      · simp [Utils.split_and_tidy, Convert.split_and_tidy, hv]

/-! ## Claim C5 -/

/-- C5: a row whose first-column cell is empty is skipped in every loop
state: the step returns the state unchanged (no entity, no error, flags
untouched) and the scan continues with the remaining rows exactly as if
the blank row were absent. -/
theorem C5_blank_row_skipped (vcon : Convert.Validator Convert.Concept)
    (vcol : Convert.Validator Convert.Collection)
    (st : Convert.ExtractState) (r : Convert.Row) (rows : List Convert.Row)
    (h : r.A = none) :
    Convert.stepRow vcon vcol st r = .ok st ∧
    Convert.runRows vcon vcol st (r :: rows)
      = Convert.runRows vcon vcol st rows := by
  refine ⟨Convert.stepRow_blank vcon vcol st r h, ?_⟩
  rw [Convert.runRows_cons_ok vcon vcol st st r
    (Convert.stepRow_blank vcon vcol st r h) rows]

/-- C5 witness: a blank row inside the concepts section of a concrete
scan is skipped and the scan continues. -/
theorem C5_blank_row_skipped_witness :
    Convert.stepRow acceptAll acceptAll ⟨[], [], true, false⟩ (rowA 5 none)
      = .ok ⟨[], [], true, false⟩ ∧
    Convert.runRows acceptAll acceptAll ⟨[], [], true, false⟩
        (rowA 5 none :: [exConceptRow])
      = Convert.runRows acceptAll acceptAll ⟨[], [], true, false⟩
          [exConceptRow] :=
  C5_blank_row_skipped acceptAll acceptAll ⟨[], [], true, false⟩
    (rowA 5 none) [exConceptRow] rfl

/-! ## Claim C6 -/

/-- C6: the template version gate fails with "The version of the Excel
template cannot be determined." when the workbook has no "Introduction"
sheet, fails with an "Unsupported template version." error listing the
supported set ("0.4.3") when the version cell J11 is not a known
version, and returns `True` when it is (the workbook is only read; the
embedding is pure, as is the source, so no mutation can occur). -/
theorem C6_template_version_gate (wb : Utils.Workbook) :
    (Utils.wbLookup wb "Introduction" = none →
      Utils.is_supported_template wb
        = .error "The version of the Excel template cannot be determined.") ∧
    (∀ sheet, Utils.wbLookup wb "Introduction" = some sheet →
      sheet "J11" ∉ Utils.KNOWN_TEMPLATE_VERSIONS.map Option.some →
      Utils.is_supported_template wb
        = .error ("Unsupported template version. Supported are 0.4.3, you supplied "
            ++ Utils.pyStr (sheet "J11") ++ ".")) ∧
    (∀ sheet, Utils.wbLookup wb "Introduction" = some sheet →
      sheet "J11" ∈ Utils.KNOWN_TEMPLATE_VERSIONS.map Option.some →
      Utils.is_supported_template wb = .ok true) := by
  refine ⟨?_, ?_, ?_⟩
  · intro hlook
    simp [Utils.is_supported_template, Utils.get_template_version, hlook]
  · intro sheet hlook hmem
    simp only [Utils.KNOWN_TEMPLATE_VERSIONS, List.map_cons, List.map_nil,
      List.mem_cons, List.not_mem_nil, or_false] at hmem
    simp only [Utils.is_supported_template, Utils.get_template_version,
      hlook]
    rw [if_neg (by simp [Utils.KNOWN_TEMPLATE_VERSIONS, hmem])]
    rfl
  · intro sheet hlook hmem
    simp only [Utils.KNOWN_TEMPLATE_VERSIONS, List.map_cons, List.map_nil,
      List.mem_cons, List.not_mem_nil, or_false] at hmem
    simp [Utils.is_supported_template, Utils.get_template_version, hlook,
      Utils.KNOWN_TEMPLATE_VERSIONS, hmem]

/-- C6 witness: the gate theorem applied to three concrete workbooks —
no Introduction sheet, version 0.4.2, version 0.4.3. -/
theorem C6_template_version_gate_witness :
    Utils.is_supported_template wbNoIntro
      = .error "The version of the Excel template cannot be determined." ∧
    Utils.is_supported_template wbOldVersion
      = .error "Unsupported template version. Supported are 0.4.3, you supplied 0.4.2." ∧
    Utils.is_supported_template wbSupported = .ok true := by
  refine ⟨(C6_template_version_gate wbNoIntro).1 rfl, ?_, ?_⟩
  · have h := (C6_template_version_gate wbOldVersion).2.1
      (fun c => if c = "J11" then some "0.4.2" else none) rfl
      (by simp [Utils.KNOWN_TEMPLATE_VERSIONS])
    simpa using h
  · exact (C6_template_version_gate wbSupported).2.2
      (fun c => if c = "J11" then some "0.4.3" else none) rfl
      (by simp [Utils.KNOWN_TEMPLATE_VERSIONS])

/-! ## Claim C7 -/

/-- C7: for every RDF-named input and registered profile (the spec's
registry holds "vocpub"), `rdf_to_excel` runs SHACL validation with the
vocpub shape graph; on non-conformance it raises a `ConversionError`
whose message embeds the validator's report text and produces no output
(the result is the error alone), and on conformance it produces no
output either — the extraction step is a stub and the function returns
Python `None`. -/
theorem C7_rdf_validation_gate (validate : Convert.ShaclValidate)
    (name profile : String)
    (hrdf : (Convert.RDF_FILE_ENDINGS.any fun e => pyEndswith name e) = true)
    (hp : profile ∈ Convert.PROFILES_keys) :
    profile = "vocpub" ∧
    (∀ rg rt, validate name "validator.vocpub.ttl" = (false, rg, rt) →
      Convert.rdf_to_excel validate name profile
        = .error (.conversionError
            ("The file you supplied is not valid according to the " ++ profile
              ++ " profile. The validation errors are:\n\n" ++ rt))) ∧
    (∀ rg rt, validate name "validator.vocpub.ttl" = (true, rg, rt) →
      Convert.rdf_to_excel validate name profile = .ok none) := by
  have hprof : profile = "vocpub" := by
    simpa [Convert.PROFILES_keys] using hp
  subst hprof
  refine ⟨rfl, ?_, ?_⟩
  · intro rg rt hv
    simp [Convert.rdf_to_excel, hrdf, Convert.PROFILES_keys, hv]
  · intro rg rt hv
    simp [Convert.rdf_to_excel, hrdf, Convert.PROFILES_keys, hv]

/-- C7 witness: the gate theorem applied to a concrete .ttl name with a
failing and a passing validator stub. -/
theorem C7_rdf_validation_gate_witness :
    Convert.rdf_to_excel shaclFail "x.ttl" "vocpub"
      = .error (.conversionError
          ("The file you supplied is not valid according to the vocpub profile. The validation errors are:\n\nREPORT")) ∧
    Convert.rdf_to_excel shaclPass "x.ttl" "vocpub" = .ok none := by
  constructor
  · exact (C7_rdf_validation_gate shaclFail "x.ttl" "vocpub"
      (by decide) (by decide)).2.1 "" "REPORT" rfl
  · exact (C7_rdf_validation_gate shaclPass "x.ttl" "vocpub"
      (by decide) (by decide)).2.2 "" "" rfl

/-! ## Claim C8 -/

/-- C8 counterexample: the gate of `excel_to_rdf` is
`name.endswith("xlsx")` — no dot — so the name "vocabxlsx", whose file
extension (pathlib `Path.suffix`) is empty and in particular is not
".xlsx", passes the gate and the conversion proceeds instead of failing
fast as the claim requires. -/
theorem C8_counterexample :
    pathSuffix "vocabxlsx" = "" ∧
    Convert.excel_to_rdf acceptAll acceptAll acceptAll "vocabxlsx" emptySheet
      = .ok ⟨Convert.mkConceptScheme emptySheet, [], []⟩ := by
  exact ⟨rfl, rfl⟩

/-- C8 (amended): `excel_to_rdf` fails fast with a `ValueError` (not a
`ConversionError`) exactly when the file name does not end with the raw
suffix "xlsx" (a dotless test — names such as "vocabxlsx" whose actual
file extension is not ".xlsx" still pass); the failure is identical for
every workbook content, so it precedes any file I/O; past the gate the
result does not depend on the name; and any `ConversionError` from
header or row parsing propagates to the caller with its message
unchanged. -/
theorem C8_extension_gate_amended (vcs : Convert.Validator Convert.ConceptScheme)
    (vcon : Convert.Validator Convert.Concept)
    (vcol : Convert.Validator Convert.Collection) (name : String) :
    (∀ sheet, pyEndswith name "xlsx" = false →
      Convert.excel_to_rdf vcs vcon vcol name sheet
        = .error (.valueError
            "Files for conversion to RDF must be Excel files ending .xlsx")) ∧
    (∀ name' sheet, pyEndswith name "xlsx" = true →
      pyEndswith name' "xlsx" = true →
      Convert.excel_to_rdf vcs vcon vcol name sheet
        = Convert.excel_to_rdf vcs vcon vcol name' sheet) ∧
    (∀ sheet e, pyEndswith name "xlsx" = true →
      vcs (Convert.mkConceptScheme sheet) = .ok () →
      Convert.extract_concepts_and_collections vcon vcol sheet.rows
        = .error e →
      Convert.excel_to_rdf vcs vcon vcol name sheet
        = .error (.conversionError e)) := by
  refine ⟨?_, ?_, ?_⟩
  · intro sheet h
    simp [Convert.excel_to_rdf, Convert.EXCEL_FILE_ENDINGS, h]
  · intro name' sheet h1 h2
    simp [Convert.excel_to_rdf, Convert.EXCEL_FILE_ENDINGS, h1, h2]
  · intro sheet e h1 hcs hex
    simp [Convert.excel_to_rdf, Convert.EXCEL_FILE_ENDINGS, h1, hcs, hex]

/-- C8 witness: the amended gate theorem applied to concrete names — a
.txt name fails fast for any content, two .xlsx names agree, and a
parsing error on a bad concept row propagates wrapped unchanged. -/
theorem C8_extension_gate_amended_witness :
    Convert.excel_to_rdf acceptAll acceptAll acceptAll "a.txt" exSheet
      = .error (.valueError
          "Files for conversion to RDF must be Excel files ending .xlsx") ∧
    Convert.excel_to_rdf acceptAll acceptAll acceptAll "a.xlsx" emptySheet
      = Convert.excel_to_rdf acceptAll acceptAll acceptAll "b.xlsx" emptySheet ∧
    Convert.excel_to_rdf acceptAll (rejectWith "field required") acceptAll
        "a.xlsx"
        { emptySheet with
            rows := [rowA 1 (some "Concept URI"), rowA 2 (some "ex:bad")] }
      = .error (.conversionError
          "Concept processing error, row 2, error: field required") := by
  refine ⟨?_, ?_, ?_⟩
  · exact (C8_extension_gate_amended acceptAll acceptAll acceptAll
      "a.txt").1 exSheet (by decide)
  · exact (C8_extension_gate_amended acceptAll acceptAll acceptAll
      "a.xlsx").2.1 "b.xlsx" emptySheet (by decide) (by decide)
  · exact (C8_extension_gate_amended acceptAll (rejectWith "field required")
      acceptAll "a.xlsx").2.2
      { emptySheet with
          rows := [rowA 1 (some "Concept URI"), rowA 2 (some "ex:bad")] }
      "Concept processing error, row 2, error: field required"
      (by decide) rfl rfl

/-! ## Claim C9 -/

/-- C9: the conversion is deterministic and shares no state between
calls — the embedding is a pure function of the file name, the selected
worksheet contents and the (stateless) collaborators, mirroring the
absence of module-level mutable state in convert.py, so two runs on
identical input content produce identical structured output. -/
theorem C9_conversion_deterministic
    (vcs : Convert.Validator Convert.ConceptScheme)
    (vcon : Convert.Validator Convert.Concept)
    (vcol : Convert.Validator Convert.Collection) (name : String)
    (sh1 sh2 : Convert.Sheet) (h : sh1 = sh2) :
    Convert.excel_to_rdf vcs vcon vcol name sh1
      = Convert.excel_to_rdf vcs vcon vcol name sh2 := by
  rw [h]

/-- C9 witness: two runs on the same concrete worksheet agree. -/
theorem C9_conversion_deterministic_witness :
    Convert.excel_to_rdf acceptAll acceptAll acceptAll "vocab.xlsx" exSheet
      = Convert.excel_to_rdf acceptAll acceptAll acceptAll "vocab.xlsx"
          exSheet :=
  C9_conversion_deterministic acceptAll acceptAll acceptAll "vocab.xlsx"
    exSheet exSheet rfl

/-! ## Claim C10 -/

namespace Utils

theorem nodup_iff_length_dedup (l : List String) :
    l.Nodup ↔ l.length = l.dedup.length := by
  constructor
  · intro h; rw [List.dedup_eq_self.mpr h]
  · intro h
    have hsub : l.dedup.Sublist l := List.dedup_sublist l
    have heq : l.dedup = l := hsub.eq_of_length h.symm
    rw [← heq]
    exact List.nodup_dedup l

theorem dupsSeen_sublist (l : List String) :
    ∀ seen, (dupsSeen seen l).Sublist l := by
  induction l with
  | nil => intro seen; simp [dupsSeen]
  | cons x xs ih =>
    intro seen
    unfold dupsSeen
    by_cases h : x ∈ seen
    · rw [if_pos h]; exact (ih seen).cons₂ x
    · rw [if_neg h]; exact (ih (x :: seen)).cons x

theorem dupsSeen_count (l : List String) :
    ∀ seen x, (dupsSeen seen l).count x
      = if x ∈ seen then l.count x else l.count x - 1 := by
  induction l with
  | nil => intro seen x; simp [dupsSeen]
  | cons y ys ih =>
    intro seen x
    unfold dupsSeen
    by_cases hy : y ∈ seen
    · rw [if_pos hy]
      rcases eq_or_ne x y with hxy | hxy
      · subst hxy
        simp [List.count_cons, ih seen x, hy]
      · simp [List.count_cons, hxy, ih seen x]
    · rw [if_neg hy]
      rcases eq_or_ne x y with hxy | hxy
      · subst hxy
        have h1 := ih (x :: seen) x
        have h2 : x ∈ x :: seen := List.mem_cons_self x seen
        rw [h1, if_pos h2, if_neg hy]
        simp [List.count_cons]
      · have h1 := ih (y :: seen) x
        have h2 : (x ∈ y :: seen) ↔ (x ∈ seen) := by simp [hxy]
        rw [h1]
        simp only [h2]
        simp [List.count_cons, hxy]

end Utils

/-- C10: `has_file_in_multiple_formats` returns `False` exactly when the
base names (extension dropped) of the scanned files with a known file
ending are pairwise distinct; otherwise it returns the list of base
names that occur more than once, as a subsequence of the scan order
containing one entry per occurrence after the first (its count of every
name is one less than the scan's count). -/
theorem C10_multiple_formats (dir_files : List String) :
    ((Utils.file_names_of dir_files).Nodup →
      Utils.has_file_in_multiple_formats dir_files
        = Utils.MultiFormatCheck.noMultiple) ∧
    (¬ (Utils.file_names_of dir_files).Nodup →
      ∃ ds, Utils.has_file_in_multiple_formats dir_files
          = Utils.MultiFormatCheck.multiple ds ∧
        ds.Sublist (Utils.file_names_of dir_files) ∧
        (∀ x, ds.count x = (Utils.file_names_of dir_files).count x - 1)) := by
  constructor
  · intro h
    simp only [Utils.has_file_in_multiple_formats]
    rw [if_pos ((Utils.nodup_iff_length_dedup _).mp h)]
  · intro h
    refine ⟨Utils.dupsSeen [] (Utils.file_names_of dir_files), ?_, ?_, ?_⟩
    · simp only [Utils.has_file_in_multiple_formats]
      rw [if_neg (fun hlen => h ((Utils.nodup_iff_length_dedup _).mpr hlen))]
    · exact Utils.dupsSeen_sublist (Utils.file_names_of dir_files) []
    · intro x
      rw [Utils.dupsSeen_count (Utils.file_names_of dir_files) [] x,
        if_neg (List.not_mem_nil x)]

/-- C10 witness: the theorem applied to a concrete scan where "d/a"
occurs with three known endings and "d/c.txt" is ignored. -/
theorem C10_multiple_formats_witness :
    ¬ (Utils.file_names_of
        ["d/a.ttl", "d/a.xlsx", "d/b.ttl", "d/c.txt", "d/a.rdf"]).Nodup ∧
    ∃ ds, Utils.has_file_in_multiple_formats
          ["d/a.ttl", "d/a.xlsx", "d/b.ttl", "d/c.txt", "d/a.rdf"]
        = Utils.MultiFormatCheck.multiple ds ∧
      ds.Sublist (Utils.file_names_of
        ["d/a.ttl", "d/a.xlsx", "d/b.ttl", "d/c.txt", "d/a.rdf"]) ∧
      (∀ x, ds.count x = (Utils.file_names_of
        ["d/a.ttl", "d/a.xlsx", "d/b.ttl", "d/c.txt", "d/a.rdf"]).count x - 1) := by
  refine ⟨by decide, ?_⟩
  exact (C10_multiple_formats
    ["d/a.ttl", "d/a.xlsx", "d/b.ttl", "d/c.txt", "d/a.rdf"]).2 (by decide)
